import Mathlib

/-!
Shallow embedding of `projects/skps/codecs2/skps_heatmap.py` (class `SKPSHeatmap`).

Numeric values are modelled as rationals (`ℚ`); numpy arrays of rank 2/3 as
nested lists; a (x, y) coordinate pair as `ℚ × ℚ`.  Fallible numpy indexing is
modelled with `Option` (an out-of-bounds integer index of a rank-d array raises
`IndexError`; in the translated code every index reaching an array access is
non-negative, so the wraparound semantics of negative numpy indices never
arises and `Option`-returning total lookup on `ℕ` indices is faithful).
-/

/-- Rank-2 array (matrix) of rationals: outer list = rows. -/
abbrev Arr2 := List (List ℚ)

/-- Rank-3 array of rationals: `m[i][j][l]`. -/
abbrev Arr3 := List (List (List ℚ))

/-- Fallible rank-3 indexing `m[i, j, l]` (numpy raises `IndexError` out of bounds). -/
def np_get3 (m : Arr3) (i j l : ℕ) : Option ℚ := do
  let a ← m[i]?
  let b ← a[j]?
  b[l]?

/-- Regular-shape predicate: `m` is a `(a, b, c)`-shaped rank-3 array. -/
def shape3 (m : Arr3) (a b c : ℕ) : Prop :=
  m.length = a ∧ ∀ ch ∈ m, ch.length = b ∧ ∀ r ∈ ch, r.length = c

instance (m : Arr3) (a b c : ℕ) : Decidable (shape3 m a b c) := by
  unfold shape3; infer_instance

/-- Sequencing a list of `Option`s: `some` of the list of values when every
element is `some`, else `none`.  This is how the per-keypoint decode loop is
modelled: the Python loop raises `IndexError` as soon as one iteration indexes
out of bounds, and otherwise fills one output row per keypoint. -/
def seqOpt {α : Type} : List (Option α) → Option (List α)
  | [] => some []
  | none :: _ => none
  | some v :: rest => (seqOpt rest).map (fun vs => v :: vs)

/-- Configuration of the codec, fixed at construction (`SKPSHeatmap.__init__`):
`input_size = (w, h)`, `heatmap_size = (W, H)`, `sigma`. -/
structure SKPSHeatmap where
  input_size : ℚ × ℚ
  heatmap_size : ℕ × ℕ
  sigma : ℚ

namespace SKPSHeatmap

/-- Heatmap width `W = heatmap_size[0]`. -/
def W (c : SKPSHeatmap) : ℕ := c.heatmap_size.1

/-- Heatmap height `H = heatmap_size[1]`. -/
def H (c : SKPSHeatmap) : ℕ := c.heatmap_size.2

/-- `self.scale_factor = np.array(input_size) / heatmap_size`, a float 2-vector. -/
def scale_factor (c : SKPSHeatmap) : ℚ × ℚ :=
  (c.input_size.1 / (c.W : ℚ), c.input_size.2 / (c.H : ℚ))

/-- `self.x_range` from `np.meshgrid(np.arange(H), np.arange(W), indexing='ij')`:
shape `(H, W)` with `x_range[row][col] = col`. -/
def x_range (c : SKPSHeatmap) : List (List ℕ) :=
  (List.range c.H).map (fun _ => List.range c.W)

/-- `self.y_range` from the same meshgrid: shape `(H, W)` with
`y_range[row][col] = row`. -/
def y_range (c : SKPSHeatmap) : List (List ℕ) :=
  (List.range c.H).map (fun row => (List.range c.W).map (fun _ => row))

/-- `offside_x = keypoints[:, 0] - np.expand_dims(self.x_range, axis=-1)`:
broadcasting a `(K,)` vector against a `(H, W, 1)` array yields shape
`(H, W, K)` with entry `[row][col][k] = kx_k - x_range[row][col]`. -/
def offside_x (c : SKPSHeatmap) (kpts : List (ℚ × ℚ)) : Arr3 :=
  (c.x_range).map (fun rowL => rowL.map (fun (xv : ℕ) => kpts.map (fun p => p.1 - (xv : ℚ))))

/-- `offside_y = keypoints[:, 1] - np.expand_dims(self.y_range, axis=-1)`,
shape `(H, W, K)` with entry `[row][col][k] = ky_k - y_range[row][col]`. -/
def offside_y (c : SKPSHeatmap) (kpts : List (ℚ × ℚ)) : Arr3 :=
  (c.y_range).map (fun rowL => rowL.map (fun (yv : ℕ) => kpts.map (fun p => p.2 - (yv : ℚ))))

/-- `np.concatenate([a, b], axis=-1)` on two rank-3 arrays of equal leading
shape `(H, W, ·)`. -/
def concatLast (a b : Arr3) : Arr3 :=
  List.zipWith (fun ra rb => List.zipWith (fun x y => x ++ y) ra rb) a b

/-- Size of the last axis of a (regular) rank-3 array. -/
def dim3 (m : Arr3) : ℕ := ((m.headD []).headD []).length

/-- `np.transpose(m, axes=[2, 0, 1])`: result`[ch][row][col] = m[row][col][ch]`. -/
def transpose201 (m : Arr3) : Arr3 :=
  (List.range (dim3 m)).map (fun ch => m.map (fun rowL => rowL.map (fun cell => cell.getD ch 0)))

/-- `SKPSHeatmap.generate_offside_heatmap(heatmap_size, keypoints)`: takes the
`(N, K, 2)` (scaled) keypoints, drops the batch axis (`keypoints = keypoints[0]`),
forms the two broadcast offset stacks, concatenates along the last axis and
transposes to channel-first `(2K, H, W)` layout. -/
def generate_offside_heatmap (c : SKPSHeatmap) (keypoints : List (List (ℚ × ℚ))) : Arr3 :=
  transpose201 (concatLast (c.offside_x (keypoints.headD []))
    (c.offside_y (keypoints.headD [])))

/-- Result record of `encode`: the dict
`{heatmaps, keypoint_weights, displacements}`. -/
structure EncodeResult where
  heatmaps : Arr3
  keypoint_weights : List ℚ
  displacements : Arr3

/-- Type of the external collaborator `generate_unbiased_gaussian_heatmaps`:
`(heatmap_size, keypoints_scaled, keypoints_visible, sigma) ↦ (heatmaps,
keypoint_weights)`.  The spec treats it as a black box; `encode` is
parameterized over it. -/
abbrev HeatmapGen :=
  (ℕ × ℕ) → List (List (ℚ × ℚ)) → List (List ℚ) → ℚ → Arr3 × List (List ℚ)

/-- `SKPSHeatmap.encode(keypoints, keypoints_visible=None)`.  Asserts a single
instance (`keypoints.shape[0] == 1`), defaults visibility to
`np.ones(keypoints.shape[:2])`, scales keypoints by `keypoints / scale_factor`,
delegates heatmap generation, and builds the offset field from the same scaled
keypoints.  Returns `none` on the assertion failure. -/
def encode (gen : HeatmapGen) (c : SKPSHeatmap) (keypoints : List (List (ℚ × ℚ)))
    (keypoints_visible : Option (List (List ℚ))) : Option EncodeResult :=
  if keypoints.length = 1 then
    let vis := keypoints_visible.getD (keypoints.map (fun row => row.map (fun _ => (1 : ℚ))))
    let scaled := keypoints.map (fun row =>
      row.map (fun p => (p.1 / (c.scale_factor).1, p.2 / (c.scale_factor).2)))
    let hw := gen c.heatmap_size scaled vis c.sigma
    some { heatmaps := hw.1
           keypoint_weights := hw.2.headD []
           displacements := c.generate_offside_heatmap scaled }
  else
    none

/-- Modelled from the spec: `get_heatmap_maximum` lives in
`mmpose/codecs/utils/post_processing.py`, which is not part of the sources
here.  Per the spec's collaborator contract it returns, per channel, the
argmax location as `(col, row)` together with the maximum value, and a
negative sentinel `(-1, -1)` for a degenerate channel (maximum value `≤ 0`).
The argmax is taken over the row-major flattening (first maximum wins). -/
def get_heatmap_maximum (heatmaps : Arr3) : List (Int × Int) × List ℚ :=
  let per := heatmaps.map (fun ch =>
    let flat := ch.flatten
    let v := flat.foldl max (flat.headD 0)
    let idx := flat.findIdx (fun a => decide (a = v))
    let w := (ch.headD []).length
    (if v ≤ 0 then ((-1 : Int), (-1 : Int)) else (((idx % w : ℕ) : Int), ((idx / w : ℕ) : Int)), v))
  (per.map (fun q => q.1), per.map (fun q => q.2))

/-- One iteration of decode's per-keypoint loop, given the split offset stacks
and the integer peak list: `[x, y] = keypoints_interger[i]`, clamp `x = y = 0`
when either coordinate is negative, then
`keypoints_decimal[i] = (x + offside_x[i, y, x], y + offside_y[i, y, x])`. -/
def decode_cell (ox oy : Arr3) (peaks : List (Int × Int)) (i : ℕ) : Option (ℚ × ℚ) := do
  let p ← peaks[i]?
  let x : Int := if p.1 < 0 ∨ p.2 < 0 then 0 else p.1
  let y : Int := if p.1 < 0 ∨ p.2 < 0 then 0 else p.2
  let vx ← np_get3 ox i y.toNat x.toNat
  let vy ← np_get3 oy i y.toNat x.toNat
  pure ((x : ℚ) + vx, (y : ℚ) + vy)

/-- Decode's post-peak-search core: split the displacement field into
`offside_x = offside[:K]` and `offside_y = offside[K:]`, run the per-keypoint
loop, then `keypoints_decimal = keypoints_decimal * self.scale_factor`
(elementwise broadcast of the 2-vector over the last axis). -/
def decode_core (scale : ℚ × ℚ) (K : ℕ) (offside : Arr3) (peaks : List (Int × Int)) :
    Option (List (ℚ × ℚ)) :=
  let ox := offside.take K
  let oy := offside.drop K
  (seqOpt ((List.range K).map (decode_cell ox oy peaks))).map
    (fun l => l.map (fun q => (q.1 * scale.1, q.2 * scale.2)))

/-- `SKPSHeatmap.decode(encoded, offside)`: copies the inputs, reads
`K, H, W = heatmaps.shape`, runs the peak finder, runs the per-keypoint loop
with sub-pixel correction and rescaling, and returns
`(keypoints_decimal[None], scores[None])` (a leading instance axis of size 1). -/
def decode (c : SKPSHeatmap) (encoded offside : Arr3) :
    Option (List (List (ℚ × ℚ)) × List (List ℚ)) :=
  let heatmaps := encoded
  let K := heatmaps.length
  let ps := get_heatmap_maximum heatmaps
  (decode_core c.scale_factor K offside ps.1).map (fun kd => ([kd], [ps.2]))

/-- State visible across an `encode` call: the codec object's configuration
attributes and the caller-supplied argument buffers.  In the source, every
numpy expression of `encode` (`keypoints / self.scale_factor`, `np.ones`, the
broadcast subtractions, `np.concatenate`, `np.transpose`) allocates a fresh
array, and no statement assigns to `self.*` or writes into an argument array;
the post-call state is therefore reconstructed unchanged, field by field. -/
structure EncState where
  cfg : SKPSHeatmap
  keypointsBuf : List (List (ℚ × ℚ))
  visBuf : Option (List (List ℚ))

/-- `encode` as a transformer of the caller-visible state: returns the encoded
dict together with the post-call state. -/
def encode_stateful (gen : HeatmapGen) (s : EncState) : Option EncodeResult × EncState :=
  (encode gen s.cfg s.keypointsBuf s.visBuf,
   { cfg := s.cfg, keypointsBuf := s.keypointsBuf, visBuf := s.visBuf })

/-- State visible across a `decode` call: the configuration plus the
caller-supplied heatmap and displacement buffers.  `decode` starts with
`heatmaps = encoded.copy()` and `offside = offside.copy()`; the only subscript
assignments in its body (`keypoints_decimal[i][·] = ...`) target the freshly
allocated `np.zeros_like` array, and no statement assigns to `self.*`, so the
post-call state is reconstructed unchanged, field by field. -/
structure DecState where
  cfg : SKPSHeatmap
  encodedBuf : Arr3
  offsideBuf : Arr3

/-- `decode` as a transformer of the caller-visible state: returns the decoded
`(keypoints, scores)` together with the post-call state. -/
def decode_stateful (s : DecState) : Option (List (List (ℚ × ℚ)) × List (List ℚ)) × DecState :=
  (decode s.cfg s.encodedBuf s.offsideBuf,
   { cfg := s.cfg, encodedBuf := s.encodedBuf, offsideBuf := s.offsideBuf })

/-- A trivial stand-in for the black-box heatmap generator, used to
instantiate theorems on concrete inputs. -/
def trivialGen : HeatmapGen := fun _ _ _ _ => ([], [])

/-- Concrete codec from the spec scenario: `input_size=(8,8)`,
`heatmap_size=(4,4)`, so `scale_factor=(2,2)`. -/
def demoCodec : SKPSHeatmap := ⟨(8, 8), (4, 4), 2⟩

/-- The offset field `encode` produces for the spec-scenario keypoint `(5, 3)`
(scaled `(5/2, 3/2)`): channel 0 holds `5/2 − col`, channel 1 holds
`3/2 − row`. -/
def demoOffside : Arr3 :=
  [[[5/2, 3/2, 1/2, -1/2], [5/2, 3/2, 1/2, -1/2],
    [5/2, 3/2, 1/2, -1/2], [5/2, 3/2, 1/2, -1/2]],
   [[3/2, 3/2, 3/2, 3/2], [1/2, 1/2, 1/2, 1/2],
    [-1/2, -1/2, -1/2, -1/2], [-3/2, -3/2, -3/2, -3/2]]]

/-- A single all-zero `4×4` heatmap channel: its maximum is `0`, so the
peak finder reports the `(-1, -1)` sentinel. -/
def zeroHeat : Arr3 :=
  [[[0, 0, 0, 0], [0, 0, 0, 0], [0, 0, 0, 0], [0, 0, 0, 0]]]

/-- A displacement field that is `1` everywhere (two channels, `4×4`). -/
def onesOff : Arr3 :=
  [[[1, 1, 1, 1], [1, 1, 1, 1], [1, 1, 1, 1], [1, 1, 1, 1]],
   [[1, 1, 1, 1], [1, 1, 1, 1], [1, 1, 1, 1], [1, 1, 1, 1]]]

/-- Concrete codec with `input_size=(4,4)`, `heatmap_size=(2,2)`,
`scale_factor=(2,2)`. -/
def smallCodec : SKPSHeatmap := ⟨(4, 4), (2, 2), 1⟩

/-- One `2×2` heatmap channel whose maximum `1` sits at row 1, col 1. -/
def smallHeat : Arr3 := [[[0, 0], [0, 1]]]

/-- A `2`-channel `2×2` displacement field with pairwise distinct entries. -/
def smallOff : Arr3 := [[[1, 2], [3, 4]], [[5, 6], [7, 8]]]

/-- `smallOff` padded with a third (extra) channel: its channel count `3` is
not twice the heatmap channel count `1`. -/
def smallOff3 : Arr3 := [[[1, 2], [3, 4]], [[5, 6], [7, 8]], [[9, 9], [9, 9]]]

/-! Indexing and shape lemmas for the offset field. -/

theorem offside_x_row (c : SKPSHeatmap) (kpts : List (ℚ × ℚ)) {row : ℕ} (hr : row < c.H) :
    (c.offside_x kpts)[row]? =
      some ((List.range c.W).map (fun (xv : ℕ) => kpts.map (fun p => p.1 - (xv : ℚ)))) := by
  simp only [offside_x, x_range, List.getElem?_map, List.getElem?_range hr, Option.map_some']

theorem offside_y_row (c : SKPSHeatmap) (kpts : List (ℚ × ℚ)) {row : ℕ} (hr : row < c.H) :
    (c.offside_y kpts)[row]? =
      some (((List.range c.W).map (fun _ => row)).map
        (fun (yv : ℕ) => kpts.map (fun p => p.2 - (yv : ℚ)))) := by
  simp only [offside_y, y_range, List.getElem?_map, List.getElem?_range hr, Option.map_some']

theorem offside_cell (c : SKPSHeatmap) (kpts : List (ℚ × ℚ)) {row col : ℕ}
    (hr : row < c.H) (hc : col < c.W) :
    ((concatLast (c.offside_x kpts) (c.offside_y kpts))[row]?.bind (fun r => r[col]?)) =
      some (kpts.map (fun p => p.1 - (col : ℚ)) ++ kpts.map (fun p => p.2 - (row : ℚ))) := by
  rw [concatLast, List.getElem?_zipWith, offside_x_row c kpts hr, offside_y_row c kpts hr]
  simp only [Option.some_bind, List.getElem?_zipWith, List.getElem?_map,
    List.getElem?_range hc, Option.map_some']

theorem transpose201_get (m : Arr3) (ch : ℕ) {row col : ℕ} {mrow : List (List ℚ)}
    {cell : List ℚ} (hch : ch < dim3 m) (h1 : m[row]? = some mrow)
    (h2 : mrow[col]? = some cell) :
    np_get3 (transpose201 m) ch row col = some (cell.getD ch 0) := by
  simp [transpose201, np_get3, List.getElem?_map, List.getElem?_range, hch, h1, h2]

theorem concat_offside_dim3 (c : SKPSHeatmap) (kpts : List (ℚ × ℚ))
    (hH : 0 < c.H) (hW : 0 < c.W) :
    dim3 (concatLast (c.offside_x kpts) (c.offside_y kpts)) = kpts.length + kpts.length := by
  have h := offside_cell c kpts hH hW
  rcases h1 : (concatLast (c.offside_x kpts) (c.offside_y kpts))[0]? with _ | mrow
  · simp [h1] at h
  rw [h1, Option.some_bind] at h
  rcases h2 : mrow[0]? with _ | cell
  · simp [h2] at h
  rw [h2, Option.some.injEq] at h
  simp [dim3, List.headD_eq_head?, List.head?_eq_getElem?, h1, h2, h]

/-- Channel `k` (for `k < K`) of the generated offset field holds, at cell
`(row, col)`, exactly `kx_k − col`. -/
theorem generate_offside_heatmap_get_x (c : SKPSHeatmap) (keypoints : List (List (ℚ × ℚ)))
    {k row col : ℕ} (hk : k < (keypoints.headD []).length) (hr : row < c.H) (hc : col < c.W) :
    np_get3 (c.generate_offside_heatmap keypoints) k row col =
      some (((keypoints.headD []).getD k 0).1 - (col : ℚ)) := by
  have hH : 0 < c.H := by omega
  have hW : 0 < c.W := by omega
  set kpts := keypoints.headD [] with hkpts
  have hcell := offside_cell c kpts hr hc
  rcases h1 : (concatLast (c.offside_x kpts) (c.offside_y kpts))[row]? with _ | mrow
  · simp [h1] at hcell
  rw [h1, Option.some_bind] at hcell
  rcases h2 : mrow[col]? with _ | cell
  · simp [h2] at hcell
  rw [h2, Option.some.injEq] at hcell
  have hdim := concat_offside_dim3 c kpts hH hW
  have ht := transpose201_get (concatLast (c.offside_x kpts) (c.offside_y kpts))
    k (by rw [hdim]; omega) h1 h2
  rw [generate_offside_heatmap, ← hkpts, ht, hcell]
  rw [List.getD_append _ _ _ _ (by simpa using hk)]
  rcases h3 : kpts[k]? with _ | p
  · rw [List.getElem?_eq_none_iff] at h3; omega
  · simp [List.getD_eq_getElem?_getD, List.getElem?_map, h3]

/-- Channel `K + k` (for `k < K`) of the generated offset field holds, at cell
`(row, col)`, exactly `ky_k − row`. -/
theorem generate_offside_heatmap_get_y (c : SKPSHeatmap) (keypoints : List (List (ℚ × ℚ)))
    {k row col : ℕ} (hk : k < (keypoints.headD []).length) (hr : row < c.H) (hc : col < c.W) :
    np_get3 (c.generate_offside_heatmap keypoints) ((keypoints.headD []).length + k) row col =
      some (((keypoints.headD []).getD k 0).2 - (row : ℚ)) := by
  have hH : 0 < c.H := by omega
  have hW : 0 < c.W := by omega
  set kpts := keypoints.headD [] with hkpts
  have hcell := offside_cell c kpts hr hc
  rcases h1 : (concatLast (c.offside_x kpts) (c.offside_y kpts))[row]? with _ | mrow
  · simp [h1] at hcell
  rw [h1, Option.some_bind] at hcell
  rcases h2 : mrow[col]? with _ | cell
  · simp [h2] at hcell
  rw [h2, Option.some.injEq] at hcell
  have hdim := concat_offside_dim3 c kpts hH hW
  have ht := transpose201_get (concatLast (c.offside_x kpts) (c.offside_y kpts))
    (kpts.length + k) (by rw [hdim]; omega) h1 h2
  rw [generate_offside_heatmap, ← hkpts, ht, hcell]
  rw [List.getD_append_right _ _ _ _ (by simp)]
  have hidx : kpts.length + k - (kpts.map (fun p => p.1 - (col : ℚ))).length = k := by
    simp
  rw [hidx]
  rcases h3 : kpts[k]? with _ | p
  · rw [List.getElem?_eq_none_iff] at h3; omega
  · simp [List.getD_eq_getElem?_getD, List.getElem?_map, h3]

/-! Generic helper lemmas: sequencing of the per-keypoint loop, and
in/out-of-bounds behaviour of rank-3 indexing on regular arrays. -/

theorem seqOpt_eq_some {α : Type} (l : List (Option α)) (r : List α)
    (h : seqOpt l = some r) : l = r.map some := by
  induction l generalizing r with
  | nil =>
      simp only [seqOpt, Option.some.injEq] at h
      subst h; simp
  | cons o rest ih =>
      cases o with
      | none => simp [seqOpt] at h
      | some v =>
          cases hrest : seqOpt rest with
          | none => simp [seqOpt, hrest] at h
          | some vs =>
              simp only [seqOpt, hrest, Option.map_some', Option.some.injEq] at h
              subst h
              simp [ih vs hrest]

theorem seqOpt_isSome {α : Type} (l : List (Option α)) (h : ∀ o ∈ l, o.isSome) :
    (seqOpt l).isSome := by
  induction l with
  | nil => simp [seqOpt]
  | cons o rest ih =>
      obtain ⟨v, hv⟩ := Option.isSome_iff_exists.1 (h o (by simp))
      have hr := ih (fun o ho => h o (by simp [ho]))
      obtain ⟨vs, hvs⟩ := Option.isSome_iff_exists.1 hr
      subst hv
      simp [seqOpt, hvs]

theorem seqOpt_none_of_cell_none {α : Type} (l : List (Option α)) (i : ℕ)
    (h : l[i]? = some none) : seqOpt l = none := by
  cases hs : seqOpt l with
  | none => rfl
  | some r =>
      have hmap := seqOpt_eq_some l r hs
      rw [hmap, List.getElem?_map] at h
      cases hr : r[i]? with
      | none => rw [hr] at h; simp at h
      | some x => rw [hr] at h; simp at h

theorem np_get3_eq_some_of_shape {m : Arr3} {a b c : ℕ} (i j l : ℕ) (hs : shape3 m a b c)
    (hi : i < a) (hj : j < b) (hl : l < c) : ∃ v, np_get3 m i j l = some v := by
  obtain ⟨hlen, hch⟩ := hs
  have hi2 : i < m.length := by omega
  obtain ⟨hchlen, hrow⟩ := hch _ (List.getElem_mem hi2)
  have hj2 : j < m[i].length := by omega
  have hrlen := hrow _ (List.getElem_mem hj2)
  have hl2 : l < m[i][j].length := by omega
  exact ⟨m[i][j][l], by
    simp [np_get3, List.getElem?_eq_getElem, hi2, hj2, hl2]⟩

theorem np_get3_none_of_oob {m : Arr3} {a b c : ℕ} (i j l : ℕ) (hs : shape3 m a b c)
    (h : b ≤ j ∨ c ≤ l) : np_get3 m i j l = none := by
  obtain ⟨hlen, hch⟩ := hs
  cases h1 : m[i]? with
  | none => simp [np_get3, h1]
  | some ch =>
      obtain ⟨hchlen, hrow⟩ := hch _ (List.getElem?_mem h1)
      rcases h with hj | hl
      · have h2 : ch[j]? = none := by rw [List.getElem?_eq_none_iff]; omega
        simp [np_get3, h1, h2]
      · cases h2 : ch[j]? with
        | none => simp [np_get3, h1, h2]
        | some r =>
            have hrlen := hrow _ (List.getElem?_mem h2)
            have h3 : r[l]? = none := by rw [List.getElem?_eq_none_iff]; omega
            simp [np_get3, h1, h2, h3]

theorem shape3_take {m : Arr3} {a b c n : ℕ} (hs : shape3 m a b c) (hn : n ≤ a) :
    shape3 (m.take n) n b c := by
  obtain ⟨hlen, hch⟩ := hs
  exact ⟨by simp [hlen]; omega, fun ch hm => hch ch (List.mem_of_mem_take hm)⟩

theorem shape3_drop {m : Arr3} {a b c n : ℕ} (hs : shape3 m a b c) :
    shape3 (m.drop n) (a - n) b c := by
  obtain ⟨hlen, hch⟩ := hs
  exact ⟨by simp [hlen], fun ch hm => hch ch (List.mem_of_mem_drop hm)⟩

theorem length_offside_x (c : SKPSHeatmap) (kpts : List (ℚ × ℚ)) :
    (c.offside_x kpts).length = c.H := by
  simp [offside_x, x_range]

theorem length_offside_y (c : SKPSHeatmap) (kpts : List (ℚ × ℚ)) :
    (c.offside_y kpts).length = c.H := by
  simp [offside_y, y_range]

theorem concat_row_length (c : SKPSHeatmap) (kpts : List (ℚ × ℚ)) :
    ∀ rowL ∈ concatLast (c.offside_x kpts) (c.offside_y kpts), rowL.length = c.W := by
  intro rowL hmem
  simp only [concatLast] at hmem
  obtain ⟨j, hj, hEq⟩ := List.mem_iff_getElem.1 hmem
  rw [List.getElem_zipWith] at hEq
  subst hEq
  rw [List.length_zipWith]
  rw [List.length_zipWith] at hj
  simp only [length_offside_x, length_offside_y] at hj
  have hj2 : j < c.H := by omega
  simp [offside_x, offside_y, x_range, y_range, List.getElem_map, List.getElem_range, hj2]

/-- The generated offset field has shape `(K + K, H, W)`. -/
theorem shape3_generate_offside (c : SKPSHeatmap) (keypoints : List (List (ℚ × ℚ)))
    (hH : 0 < c.H) (hW : 0 < c.W) :
    shape3 (c.generate_offside_heatmap keypoints)
      ((keypoints.headD []).length + (keypoints.headD []).length) c.H c.W := by
  set kpts := keypoints.headD [] with hkpts
  constructor
  · rw [generate_offside_heatmap, ← hkpts, transpose201]
    simp [concat_offside_dim3 c kpts hH hW]
  · intro ch hch
    rw [generate_offside_heatmap, ← hkpts, transpose201] at hch
    obtain ⟨chIdx, _, hEq⟩ := List.mem_map.1 hch
    subst hEq
    constructor
    · rw [List.length_map, concatLast, List.length_zipWith, length_offside_x, length_offside_y]
      omega
    · intro r hr
      obtain ⟨rowL, hrowL, hEq⟩ := List.mem_map.1 hr
      subst hEq
      rw [List.length_map]
      exact concat_row_length c kpts rowL hrowL

/-! Lemmas about the decode loop. -/

theorem decode_cell_eval (ox oy : Arr3) (peaks : List (Int × Int)) {k : ℕ} {x y : Int}
    {vx vy : ℚ} (hp : peaks[k]? = some (x, y)) (hx : 0 ≤ x) (hy : 0 ≤ y)
    (hvx : np_get3 ox k y.toNat x.toNat = some vx)
    (hvy : np_get3 oy k y.toNat x.toNat = some vy) :
    decode_cell ox oy peaks k = some ((x : ℚ) + vx, (y : ℚ) + vy) := by
  have hcond : ¬(x < 0 ∨ y < 0) := by omega
  simp [decode_cell, hp, hcond, hvx, hvy]

theorem decode_cell_clamped (ox oy : Arr3) (peaks : List (Int × Int)) {k : ℕ} {x y : Int}
    {vx vy : ℚ} (hp : peaks[k]? = some (x, y)) (hneg : x < 0 ∨ y < 0)
    (hvx : np_get3 ox k 0 0 = some vx) (hvy : np_get3 oy k 0 0 = some vy) :
    decode_cell ox oy peaks k = some ((0 : ℚ) + vx, (0 : ℚ) + vy) := by
  simp [decode_cell, hp, hneg, hvx, hvy]

theorem decode_cell_isSome (ox oy : Arr3) (peaks : List (Int × Int)) {Ka Kb b c k : ℕ}
    (hox : shape3 ox Ka b c) (hoy : shape3 oy Kb b c) (hka : k < Ka) (hkb : k < Kb)
    (hb : 0 < b) (hc : 0 < c) {p : Int × Int} (hp : peaks[k]? = some p)
    (hin : 0 ≤ p.1 → 0 ≤ p.2 → p.1.toNat < c ∧ p.2.toNat < b) :
    (decode_cell ox oy peaks k).isSome := by
  by_cases hneg : p.1 < 0 ∨ p.2 < 0
  · obtain ⟨vx, hvx⟩ := np_get3_eq_some_of_shape k 0 0 hox hka hb hc
    obtain ⟨vy, hvy⟩ := np_get3_eq_some_of_shape k 0 0 hoy hkb hb hc
    simp [decode_cell, hp, hneg, hvx, hvy]
  · push_neg at hneg
    obtain ⟨h1, h2⟩ := hin hneg.1 hneg.2
    obtain ⟨vx, hvx⟩ := np_get3_eq_some_of_shape k p.2.toNat p.1.toNat hox hka h2 h1
    obtain ⟨vy, hvy⟩ := np_get3_eq_some_of_shape k p.2.toNat p.1.toNat hoy hkb h2 h1
    have hcond : ¬(p.1 < 0 ∨ p.2 < 0) := by omega
    simp [decode_cell, hp, hcond, hvx, hvy]

theorem np_get3_take {m : Arr3} {n i j l : ℕ} (hi : i < n) :
    np_get3 (m.take n) i j l = np_get3 m i j l := by
  simp [np_get3, List.getElem?_take, hi]

theorem np_get3_drop (m : Arr3) (n i j l : ℕ) :
    np_get3 (m.drop n) i j l = np_get3 m (n + i) j l := by
  simp [np_get3, List.getElem?_drop]

theorem get_heatmap_maximum_lengths (hm : Arr3) :
    (SKPSHeatmap.get_heatmap_maximum hm).1.length = hm.length ∧
    (SKPSHeatmap.get_heatmap_maximum hm).2.length = hm.length := by
  simp [SKPSHeatmap.get_heatmap_maximum]

theorem decode_core_get {scale : ℚ × ℚ} {K : ℕ} {off : Arr3} {peaks : List (Int × Int)}
    {l : List (ℚ × ℚ)} (h : decode_core scale K off peaks = some l) {k : ℕ} (hk : k < K) :
    ∃ q, decode_cell (off.take K) (off.drop K) peaks k = some q ∧
      l[k]? = some (q.1 * scale.1, q.2 * scale.2) := by
  rw [decode_core] at h
  cases hs : seqOpt ((List.range K).map (decode_cell (off.take K) (off.drop K) peaks)) with
  | none => rw [hs] at h; simp at h
  | some l0 =>
      rw [hs, Option.map_some', Option.some.injEq] at h
      have hmap := seqOpt_eq_some _ _ hs
      have hk1 : ((List.range K).map (decode_cell (off.take K) (off.drop K) peaks))[k]? =
          some (decode_cell (off.take K) (off.drop K) peaks k) := by
        rw [List.getElem?_map, List.getElem?_range hk, Option.map_some']
      rw [hmap, List.getElem?_map] at hk1
      cases hl0 : l0[k]? with
      | none => rw [hl0] at hk1; simp at hk1
      | some q =>
          rw [hl0, Option.map_some', Option.some.injEq] at hk1
          refine ⟨q, hk1.symm, ?_⟩
          subst h
          rw [List.getElem?_map, hl0, Option.map_some']

theorem decode_core_length {scale : ℚ × ℚ} {K : ℕ} {off : Arr3} {peaks : List (Int × Int)}
    {l : List (ℚ × ℚ)} (h : decode_core scale K off peaks = some l) : l.length = K := by
  rw [decode_core] at h
  cases hs : seqOpt ((List.range K).map (decode_cell (off.take K) (off.drop K) peaks)) with
  | none => rw [hs] at h; simp at h
  | some l0 =>
      rw [hs, Option.map_some', Option.some.injEq] at h
      have hmap := seqOpt_eq_some _ _ hs
      have : K = l0.length := by
        have := congrArg List.length hmap
        simpa using this
      subst h
      simp [← this]

theorem decode_core_isSome {scale : ℚ × ℚ} {K : ℕ} {off : Arr3} {peaks : List (Int × Int)}
    (h : ∀ k < K, (decode_cell (off.take K) (off.drop K) peaks k).isSome) :
    (decode_core scale K off peaks).isSome := by
  rw [decode_core]
  have hseq := seqOpt_isSome ((List.range K).map (decode_cell (off.take K) (off.drop K) peaks))
    (by
      intro o ho
      obtain ⟨k, hkmem, hEq⟩ := List.mem_map.1 ho
      subst hEq
      exact h k (List.mem_range.1 hkmem))
  obtain ⟨r, hr⟩ := Option.isSome_iff_exists.1 hseq
  simp [hr]

theorem decode_core_none_of_cell_none {scale : ℚ × ℚ} {K : ℕ} {off : Arr3}
    {peaks : List (Int × Int)} {k : ℕ} (hk : k < K)
    (h : decode_cell (off.take K) (off.drop K) peaks k = none) :
    decode_core scale K off peaks = none := by
  rw [decode_core]
  have hcell : ((List.range K).map (decode_cell (off.take K) (off.drop K) peaks))[k]? =
      some none := by
    rw [List.getElem?_map, List.getElem?_range hk, Option.map_some', h]
  rw [seqOpt_none_of_cell_none _ k hcell]
  rfl

theorem encode_displacements {gen : HeatmapGen} {c : SKPSHeatmap}
    {keypoints : List (List (ℚ × ℚ))} {vis : Option (List (List ℚ))} {enc : EncodeResult}
    (h : encode gen c keypoints vis = some enc) :
    enc.displacements = c.generate_offside_heatmap (keypoints.map (fun row =>
      row.map (fun p => (p.1 / c.scale_factor.1, p.2 / c.scale_factor.2)))) := by
  rw [encode] at h
  split at h
  · obtain rfl := Option.some.inj h
    rfl
  · exact absurd h (by simp)

theorem decode_eq (c : SKPSHeatmap) (enc off : Arr3) :
    decode c enc off =
      (decode_core c.scale_factor enc.length off (get_heatmap_maximum enc).1).map
        (fun kd => ([kd], [(get_heatmap_maximum enc).2])) := rfl

end SKPSHeatmap

namespace SKPSHeatmap

/-- C5: `encode` fails loudly (assertion `keypoints.shape[0] == 1`) on every
keypoints array whose instance dimension `N` is not 1, and the assertion
passes (the call succeeds) whenever `N = 1`. -/
theorem spec_C5 (gen : HeatmapGen) (c : SKPSHeatmap) (keypoints : List (List (ℚ × ℚ)))
    (vis : Option (List (List ℚ))) :
    (keypoints.length ≠ 1 → encode gen c keypoints vis = none) ∧
    (keypoints.length = 1 → (encode gen c keypoints vis).isSome) := by
  constructor <;> intro h <;> simp [encode, h]

theorem spec_C5_witness :
    encode (fun _ _ _ _ => ([], [])) ⟨(8, 8), (4, 4), 2⟩
      ([] : List (List (ℚ × ℚ))) none = none ∧
    (encode (fun _ _ _ _ => ([], [])) ⟨(8, 8), (4, 4), 2⟩ [[((5 : ℚ), (3 : ℚ))]] none).isSome :=
  ⟨(spec_C5 (fun _ _ _ _ => ([], [])) ⟨(8, 8), (4, 4), 2⟩ [] none).1 (by decide),
   (spec_C5 (fun _ _ _ _ => ([], [])) ⟨(8, 8), (4, 4), 2⟩ [[((5 : ℚ), (3 : ℚ))]] none).2 rfl⟩

/-- C7: calling `encode` with `keypoints_visible` omitted behaves exactly as
passing the all-ones `(N, K)` visibility array `np.ones(keypoints.shape[:2])`,
for every heatmap generator, configuration and keypoints array. -/
theorem spec_C7 (gen : HeatmapGen) (c : SKPSHeatmap) (keypoints : List (List (ℚ × ℚ))) :
    encode gen c keypoints none =
      encode gen c keypoints
        (some (keypoints.map (fun row => row.map (fun _ => (1 : ℚ))))) := by
  simp [encode]

/-- C8: neither `encode` nor `decode` mutates the codec configuration
(`input_size`, `heatmap_size`, `sigma`, hence also the derived `scale_factor`,
`x_range`, `y_range`), and `decode` leaves the caller-supplied heatmap and
displacement buffers unchanged: the caller-visible state after either call is
the state before it. -/
theorem spec_C8 :
    ∀ (gen : HeatmapGen) (s : EncState) (t : DecState),
      (encode_stateful gen s).2 = s ∧ (decode_stateful t).2 = t :=
  fun _ _ _ => ⟨rfl, rfl⟩

/-- C9: the displacement field returned by `encode` does not depend on
`keypoints_visible` at all: two calls with identical keypoints and arbitrarily
different visibility values return identical displacement fields. -/
theorem spec_C9 (gen : HeatmapGen) (c : SKPSHeatmap) (keypoints : List (List (ℚ × ℚ)))
    (v v' : Option (List (List ℚ))) :
    (encode gen c keypoints v).map (fun e => e.displacements) =
      (encode gen c keypoints v').map (fun e => e.displacements) := by
  rw [encode, encode]
  split <;> simp

end SKPSHeatmap


namespace SKPSHeatmap

/-- C1: the displacement field returned by `encode` (computed by
`generate_offside_heatmap`) stores, for every keypoint `k` with scaled
coordinate `(kx, ky)` and every heatmap cell `(row, col)`, exactly `kx − col`
in channel `k` and exactly `ky − row` in channel `K + k`, and has shape
`(2K, H, W)`. -/
theorem spec_C1 (gen : HeatmapGen) (c : SKPSHeatmap) (ks : List (ℚ × ℚ))
    (vis : Option (List (List ℚ))) (enc : EncodeResult)
    (henc : encode gen c [ks] vis = some enc)
    {k row col : ℕ} (hk : k < ks.length) (hr : row < c.H) (hc : col < c.W) :
    shape3 enc.displacements (2 * ks.length) c.H c.W ∧
    np_get3 enc.displacements k row col =
      some ((ks.getD k 0).1 / c.scale_factor.1 - (col : ℚ)) ∧
    np_get3 enc.displacements (ks.length + k) row col =
      some ((ks.getD k 0).2 / c.scale_factor.2 - (row : ℚ)) := by
  have hd := encode_displacements henc
  have hH : 0 < c.H := by omega
  have hW : 0 < c.W := by omega
  set scaled := ([ks].map (fun row =>
    row.map (fun p => (p.1 / c.scale_factor.1, p.2 / c.scale_factor.2)))) with hscaled
  have hhead : scaled.headD [] =
      ks.map (fun p => (p.1 / c.scale_factor.1, p.2 / c.scale_factor.2)) := rfl
  have h2 : (scaled.headD []).length = ks.length := by rw [hhead]; simp
  have hklen : k < (scaled.headD []).length := by omega
  refine ⟨?_, ?_, ?_⟩
  · rw [hd, two_mul, ← h2]
    exact shape3_generate_offside c scaled hH hW
  · rw [hd, generate_offside_heatmap_get_x c scaled hklen hr hc]
    congr 2
    rcases h3 : ks[k]? with _ | p
    · rw [List.getElem?_eq_none_iff] at h3; omega
    · rw [hhead]
      simp [List.getD_eq_getElem?_getD, List.getElem?_map, h3]
  · rw [hd, ← h2, generate_offside_heatmap_get_y c scaled hklen hr hc]
    congr 2
    rcases h3 : ks[k]? with _ | p
    · rw [List.getElem?_eq_none_iff] at h3; omega
    · rw [hhead]
      simp [List.getD_eq_getElem?_getD, List.getElem?_map, h3]

theorem spec_C1_witness :
    shape3 (EncodeResult.mk [] [] demoOffside).displacements (2 * 1)
      demoCodec.H demoCodec.W ∧
    np_get3 (EncodeResult.mk [] [] demoOffside).displacements 0 1 2 =
      some ((([((5 : ℚ), (3 : ℚ))].getD 0 0).1 / demoCodec.scale_factor.1 - (2 : ℚ))) ∧
    np_get3 (EncodeResult.mk [] [] demoOffside).displacements (1 + 0) 1 2 =
      some ((([((5 : ℚ), (3 : ℚ))].getD 0 0).2 / demoCodec.scale_factor.2 - (1 : ℚ))) := by
  have hlen : ([((5 : ℚ), (3 : ℚ))] : List (ℚ × ℚ)).length = 1 := rfl
  refine spec_C1 trivialGen demoCodec [((5 : ℚ), (3 : ℚ))] none
    (EncodeResult.mk [] [] demoOffside) ?_ (by omega) (by decide) (by decide)
  norm_num [encode, trivialGen, demoCodec, demoOffside, scale_factor, W, H,
    generate_offside_heatmap, offside_x, offside_y, x_range, y_range, concatLast,
    transpose201, dim3, List.range_succ]

end SKPSHeatmap

namespace SKPSHeatmap

/-- C4: round-trip.  If a keypoint list is encoded (any generator, any
visibility) and `decode_core` is run on the resulting displacement field with
the peak for keypoint `k` reported at any in-bounds non-negative cell — in
particular the spec scenario `K=1`, `input_size=(8,8)`, `heatmap_size=(4,4)`,
keypoint `(5,3)`, peak `(col=2,row=1)` — the decoded coordinate for `k` is
exactly the original input-image coordinate: the sub-pixel offset cancels the
discretization of the peak cell. -/
theorem spec_C4 (gen : HeatmapGen) (c : SKPSHeatmap) (ks : List (ℚ × ℚ))
    (vis : Option (List (List ℚ))) (enc : EncodeResult) (peaks : List (Int × Int))
    (l : List (ℚ × ℚ))
    (henc : encode gen c [ks] vis = some enc)
    (hdc : decode_core c.scale_factor ks.length enc.displacements peaks = some l)
    {k : ℕ} {x y : Int}
    (hk : k < ks.length) (hp : peaks[k]? = some (x, y)) (hx : 0 ≤ x) (hy : 0 ≤ y)
    (hxW : x.toNat < c.W) (hyH : y.toNat < c.H)
    (hw0 : c.input_size.1 ≠ 0) (hh0 : c.input_size.2 ≠ 0) :
    l[k]? = some (ks.getD k 0) := by
  have hd := encode_displacements henc
  set scaled := ([ks].map (fun row =>
    row.map (fun p => (p.1 / c.scale_factor.1, p.2 / c.scale_factor.2)))) with hscaled
  have hhead : scaled.headD [] =
      ks.map (fun p => (p.1 / c.scale_factor.1, p.2 / c.scale_factor.2)) := rfl
  have h2 : (scaled.headD []).length = ks.length := by rw [hhead]; simp
  have hklen : k < (scaled.headD []).length := by omega
  have hvx : np_get3 (enc.displacements.take ks.length) k y.toNat x.toNat =
      some (((scaled.headD []).getD k 0).1 - (x.toNat : ℚ)) := by
    rw [np_get3_take hk, hd]
    exact generate_offside_heatmap_get_x c scaled hklen hyH hxW
  have hvy : np_get3 (enc.displacements.drop ks.length) k y.toNat x.toNat =
      some (((scaled.headD []).getD k 0).2 - (y.toNat : ℚ)) := by
    rw [np_get3_drop, ← h2, hd]
    exact generate_offside_heatmap_get_y c scaled hklen hyH hxW
  have hev := decode_cell_eval _ _ peaks hp hx hy hvx hvy
  obtain ⟨q, hcell, hl⟩ := decode_core_get hdc hk
  have hq := Option.some.inj (hcell.symm.trans hev)
  subst hq
  rw [hl]
  have hgd : (scaled.headD []).getD k 0 =
      ((ks.getD k 0).1 / c.scale_factor.1, (ks.getD k 0).2 / c.scale_factor.2) := by
    rcases h3 : ks[k]? with _ | p
    · rw [List.getElem?_eq_none_iff] at h3; omega
    · rw [hhead]
      simp [List.getD_eq_getElem?_getD, List.getElem?_map, h3]
  have hWpos : (0 : ℚ) < (c.W : ℚ) := by
    have : 0 < c.W := by omega
    exact_mod_cast this
  have hHpos : (0 : ℚ) < (c.H : ℚ) := by
    have : 0 < c.H := by omega
    exact_mod_cast this
  have hsx : c.scale_factor.1 ≠ 0 := by
    rw [scale_factor]
    exact div_ne_zero hw0 (ne_of_gt hWpos)
  have hsy : c.scale_factor.2 ≠ 0 := by
    rw [scale_factor]
    exact div_ne_zero hh0 (ne_of_gt hHpos)
  have hxq : ((x.toNat : ℕ) : ℚ) = ((x : ℤ) : ℚ) := by
    rw_mod_cast [Int.toNat_of_nonneg hx]
  have hyq : ((y.toNat : ℕ) : ℚ) = ((y : ℤ) : ℚ) := by
    rw_mod_cast [Int.toNat_of_nonneg hy]
  rw [hgd]
  refine congrArg some (Prod.ext ?_ ?_)
  · show ((x : ℚ) + ((ks.getD k 0).1 / c.scale_factor.1 - ((x.toNat : ℕ) : ℚ))) *
      c.scale_factor.1 = (ks.getD k 0).1
    rw [hxq]
    have : ((x : ℤ) : ℚ) + ((ks.getD k 0).1 / c.scale_factor.1 - ((x : ℤ) : ℚ)) =
        (ks.getD k 0).1 / c.scale_factor.1 := by ring
    rw [this, div_mul_cancel₀ _ hsx]
  · show ((y : ℚ) + ((ks.getD k 0).2 / c.scale_factor.2 - ((y.toNat : ℕ) : ℚ))) *
      c.scale_factor.2 = (ks.getD k 0).2
    rw [hyq]
    have : ((y : ℤ) : ℚ) + ((ks.getD k 0).2 / c.scale_factor.2 - ((y : ℤ) : ℚ)) =
        (ks.getD k 0).2 / c.scale_factor.2 := by ring
    rw [this, div_mul_cancel₀ _ hsy]

theorem spec_C4_witness :
    ([((5 : ℚ), (3 : ℚ))] : List (ℚ × ℚ))[0]? =
      some (([((5 : ℚ), (3 : ℚ))] : List (ℚ × ℚ)).getD 0 0) := by
  refine spec_C4 trivialGen demoCodec [((5 : ℚ), (3 : ℚ))] none
    (EncodeResult.mk [] [] demoOffside) [((2 : Int), (1 : Int))] [((5 : ℚ), (3 : ℚ))]
    ?_ ?_ (by decide) rfl (by decide) (by decide) (by decide) (by decide)
    (by norm_num [demoCodec]) (by norm_num [demoCodec])
  · norm_num [encode, trivialGen, demoCodec, demoOffside, scale_factor, W, H,
      generate_offside_heatmap, offside_x, offside_y, x_range, y_range, concatLast,
      transpose201, dim3, List.range_succ]
  · have ht2 : (2 : Int).toNat = 2 := rfl
    have ht1 : (1 : Int).toNat = 1 := rfl
    norm_num [decode_core, decode_cell, seqOpt, np_get3, demoCodec, demoOffside,
      scale_factor, W, H, List.range_succ, ht2, ht1]

end SKPSHeatmap

namespace SKPSHeatmap

/-- C2 (amended): when the peak finder reports a negative sentinel `(x, y)`
(`x < 0` or `y < 0`) for channel `k`, `decode` clamps the peak to cell
`(0, 0)` and still applies the usual sub-pixel correction read there: the
decoded coordinate for channel `k` is `(0 + offset_x[k,0,0]) · scale_x`,
`(0 + offset_y[k,0,0]) · scale_y` — not `(0, 0)` itself — and no crash or
wraparound indexing occurs. -/
theorem spec_C2 (c : SKPSHeatmap) (enc off : Arr3)
    {r : List (List (ℚ × ℚ)) × List (List ℚ)} (h : decode c enc off = some r)
    {k : ℕ} {x y : Int} (hk : k < enc.length)
    (hp : (get_heatmap_maximum enc).1[k]? = some (x, y)) (hneg : x < 0 ∨ y < 0) :
    ∃ kd vx vy, r = ([kd], [(get_heatmap_maximum enc).2]) ∧
      np_get3 (off.take enc.length) k 0 0 = some vx ∧
      np_get3 (off.drop enc.length) k 0 0 = some vy ∧
      kd[k]? = some (((0 : ℚ) + vx) * c.scale_factor.1,
        ((0 : ℚ) + vy) * c.scale_factor.2) := by
  rw [decode_eq] at h
  cases hdc : decode_core c.scale_factor enc.length off (get_heatmap_maximum enc).1 with
  | none => rw [hdc] at h; simp at h
  | some kd =>
      rw [hdc, Option.map_some', Option.some.injEq] at h
      subst h
      obtain ⟨q, hcell, hl⟩ := decode_core_get hdc hk
      rcases hvx : np_get3 (off.take enc.length) k 0 0 with _ | vx
      · simp [decode_cell, hp, hneg, hvx] at hcell
      rcases hvy : np_get3 (off.drop enc.length) k 0 0 with _ | vy
      · simp [decode_cell, hp, hneg, hvx, hvy] at hcell
      have hev := decode_cell_clamped (off.take enc.length) (off.drop enc.length)
        (get_heatmap_maximum enc).1 hp hneg hvx hvy
      have hq := Option.some.inj (hcell.symm.trans hev)
      subst hq
      exact ⟨kd, vx, vy, rfl, rfl, rfl, by simpa using hl⟩

set_option maxRecDepth 10000 in
/-- C2, counterexample to the claim as stated: on an all-zero heatmap the
peak finder returns `(-1, -1)`, and `decode` returns coordinate `(2, 2)` for
that channel (the offset stored at cell `(0,0)` times the scale factor), not
`(0, 0)` scaled by the scale factor. -/
theorem spec_C2_counterexample :
    (get_heatmap_maximum zeroHeat).1 = [((-1 : Int), (-1 : Int))] ∧
    decode demoCodec zeroHeat onesOff = some ([[((2 : ℚ), (2 : ℚ))]], [[(0 : ℚ)]]) ∧
    ((2 : ℚ), (2 : ℚ)) ≠
      ((0 : ℚ) * demoCodec.scale_factor.1, (0 : ℚ) * demoCodec.scale_factor.2) := by
  have hmax : get_heatmap_maximum zeroHeat = ([((-1 : Int), (-1 : Int))], [(0 : ℚ)]) := rfl
  refine ⟨by rw [hmax], ?_, by norm_num [demoCodec, scale_factor]⟩
  rw [decode_eq, hmax]
  norm_num [decode_core, decode_cell, seqOpt, np_get3, demoCodec, zeroHeat, onesOff,
    scale_factor, W, H, List.range_succ]

set_option maxRecDepth 10000 in
theorem spec_C2_witness :
    ∃ kd vx vy,
      (([[((2 : ℚ), (2 : ℚ))]], [[(0 : ℚ)]]) :
          List (List (ℚ × ℚ)) × List (List ℚ)) =
        ([kd], [(get_heatmap_maximum zeroHeat).2]) ∧
      np_get3 (onesOff.take zeroHeat.length) 0 0 0 = some vx ∧
      np_get3 (onesOff.drop zeroHeat.length) 0 0 0 = some vy ∧
      kd[0]? = some (((0 : ℚ) + vx) * demoCodec.scale_factor.1,
        ((0 : ℚ) + vy) * demoCodec.scale_factor.2) := by
  refine spec_C2 (x := -1) (y := -1) demoCodec zeroHeat onesOff ?_ (by decide) (by rfl)
    (Or.inl (by decide))
  have hmax : get_heatmap_maximum zeroHeat = ([((-1 : Int), (-1 : Int))], [(0 : ℚ)]) := rfl
  rw [decode_eq, hmax]
  norm_num [decode_core, decode_cell, seqOpt, np_get3, demoCodec, zeroHeat, onesOff,
    scale_factor, W, H, List.range_succ]

/-- C3: for a non-negative integer peak `(x, y)` reported for keypoint `k`,
the decoded coordinate before rescaling is exactly `x + offset_x[k, y, x]`
and `y + offset_y[k, y, x]` — the offsets read at the integer peak cell in
`(channel, row, col)` order — the final output is these values multiplied
elementwise by `scale_factor`, and the result carries a leading instance
dimension: keypoints of shape `(1, K, D)` and scores of shape `(1, K)`. -/
theorem spec_C3 (c : SKPSHeatmap) (enc off : Arr3)
    {r : List (List (ℚ × ℚ)) × List (List ℚ)} (h : decode c enc off = some r)
    {k : ℕ} {x y : Int} {u v : ℚ} (hk : k < enc.length)
    (hp : (get_heatmap_maximum enc).1[k]? = some (x, y)) (hx : 0 ≤ x) (hy : 0 ≤ y)
    (hvx : np_get3 (off.take enc.length) k y.toNat x.toNat = some u)
    (hvy : np_get3 (off.drop enc.length) k y.toNat x.toNat = some v) :
    ∃ kd, r = ([kd], [(get_heatmap_maximum enc).2]) ∧
      kd.length = enc.length ∧
      (get_heatmap_maximum enc).2.length = enc.length ∧
      kd[k]? = some (((x : ℚ) + u) * c.scale_factor.1,
        ((y : ℚ) + v) * c.scale_factor.2) := by
  rw [decode_eq] at h
  cases hdc : decode_core c.scale_factor enc.length off (get_heatmap_maximum enc).1 with
  | none => rw [hdc] at h; simp at h
  | some kd =>
      rw [hdc, Option.map_some', Option.some.injEq] at h
      subst h
      refine ⟨kd, rfl, decode_core_length hdc, (get_heatmap_maximum_lengths enc).2, ?_⟩
      obtain ⟨q, hcell, hl⟩ := decode_core_get hdc hk
      have hev := decode_cell_eval (off.take enc.length) (off.drop enc.length)
        (get_heatmap_maximum enc).1 hp hx hy hvx hvy
      have hq := Option.some.inj (hcell.symm.trans hev)
      subst hq
      simpa using hl

set_option maxRecDepth 10000 in
theorem spec_C3_witness :
    ∃ kd,
      (([[((10 : ℚ), (18 : ℚ))]], [[(1 : ℚ)]]) :
          List (List (ℚ × ℚ)) × List (List ℚ)) =
        ([kd], [(get_heatmap_maximum smallHeat).2]) ∧
      kd.length = smallHeat.length ∧
      (get_heatmap_maximum smallHeat).2.length = smallHeat.length ∧
      kd[0]? = some ((((1 : Int) : ℚ) + 4) * smallCodec.scale_factor.1,
        (((1 : Int) : ℚ) + 8) * smallCodec.scale_factor.2) := by
  have hmax : get_heatmap_maximum smallHeat = ([((1 : Int), (1 : Int))], [(1 : ℚ)]) := rfl
  have ht1 : (1 : Int).toNat = 1 := rfl
  refine spec_C3 (x := 1) (y := 1) (u := 4) (v := 8) smallCodec smallHeat smallOff ?_
    (by decide) (by rw [hmax]; rfl) (by decide) (by decide)
    (by rw [ht1]; rfl) (by rw [ht1]; rfl)
  rw [decode_eq, hmax]
  norm_num [decode_core, decode_cell, seqOpt, np_get3, smallCodec, smallHeat, smallOff,
    scale_factor, W, H, List.range_succ, ht1]

end SKPSHeatmap

namespace SKPSHeatmap

/-- C6 (amended): `decode` performs no validation of the displacement channel
count.  Whenever the displacement field has at least `2K` channels of valid
`(H, W)` extent and every reported peak is in bounds (or negative, hence
clamped to `(0,0)`), `decode` succeeds silently — using channels `[0, K)` as
x-offsets and `[K, 2K)` as y-offsets and ignoring any extra channels, so its
result equals the result on the field truncated to `2K` channels — instead of
failing fast on the mismatch; a deficit of channels surfaces only as an
out-of-bounds indexing error inside the per-keypoint loop, not as an upfront
shape check. -/
theorem spec_C6 (c : SKPSHeatmap) (enc off : Arr3) {C b d : ℕ}
    (hsh : shape3 off C b d) (hC : 2 * enc.length ≤ C) (hb : 0 < b) (hd : 0 < d)
    (hin : ∀ (k : ℕ) (p : Int × Int), (get_heatmap_maximum enc).1[k]? = some p →
      0 ≤ p.1 → 0 ≤ p.2 → p.1.toNat < d ∧ p.2.toNat < b) :
    (decode c enc off).isSome ∧
    decode c enc off = decode c enc (off.take (2 * enc.length)) := by
  have hplen : (get_heatmap_maximum enc).1.length = enc.length :=
    (get_heatmap_maximum_lengths enc).1
  constructor
  · rw [decode_eq]
    have hcore : (decode_core c.scale_factor enc.length off
        (get_heatmap_maximum enc).1).isSome := by
      refine decode_core_isSome ?_
      intro k hk
      have hox : shape3 (off.take enc.length) enc.length b d :=
        shape3_take hsh (by omega)
      have hoy : shape3 (off.drop enc.length) (C - enc.length) b d := shape3_drop hsh
      have hpk : k < (get_heatmap_maximum enc).1.length := by omega
      refine decode_cell_isSome _ _ _ hox hoy hk (by omega) hb hd
        (List.getElem?_eq_getElem hpk) ?_
      intro h1 h2
      exact hin k _ (List.getElem?_eq_getElem hpk) h1 h2
    obtain ⟨kd, hkd⟩ := Option.isSome_iff_exists.1 hcore
    simp [hkd]
  · rw [decode_eq, decode_eq]
    have h1 : (off.take (2 * enc.length)).take enc.length = off.take enc.length := by
      rw [List.take_take]
      congr 1
      omega
    have h2 : (off.take (2 * enc.length)).drop enc.length =
        (off.drop enc.length).take enc.length := by
      rw [List.drop_take]
      congr 1
      omega
    have hcellEq : ∀ k ∈ List.range enc.length,
        decode_cell (off.take enc.length) (off.drop enc.length)
          (get_heatmap_maximum enc).1 k =
        decode_cell ((off.take (2 * enc.length)).take enc.length)
          ((off.take (2 * enc.length)).drop enc.length)
          (get_heatmap_maximum enc).1 k := by
      intro k hkmem
      have hk : k < enc.length := List.mem_range.1 hkmem
      rw [h1, h2]
      simp only [decode_cell, np_get3_take hk]
    rw [decode_core, decode_core, List.map_congr_left hcellEq]

set_option maxRecDepth 10000 in
/-- C6, counterexample to the claim as stated: a displacement field with 3
channels (not `2K = 2`) is decoded without any error — `decode` silently
returns a result instead of failing fast on the shape mismatch. -/
theorem spec_C6_counterexample :
    smallOff3.length ≠ 2 * smallHeat.length ∧
    decode smallCodec smallHeat smallOff3 =
      some ([[((10 : ℚ), (18 : ℚ))]], [[(1 : ℚ)]]) := by
  refine ⟨by decide, ?_⟩
  have hmax : get_heatmap_maximum smallHeat = ([((1 : Int), (1 : Int))], [(1 : ℚ)]) := rfl
  have ht1 : (1 : Int).toNat = 1 := rfl
  rw [decode_eq, hmax]
  norm_num [decode_core, decode_cell, seqOpt, np_get3, smallCodec, smallHeat, smallOff3,
    scale_factor, W, H, List.range_succ, ht1]

set_option maxRecDepth 10000 in
theorem spec_C6_witness :
    (decode smallCodec smallHeat smallOff3).isSome ∧
    decode smallCodec smallHeat smallOff3 =
      decode smallCodec smallHeat (smallOff3.take (2 * smallHeat.length)) := by
  refine spec_C6 (C := 3) (b := 2) (d := 2) smallCodec smallHeat smallOff3 (by decide) (by decide)
    (by decide) (by decide) ?_
  intro k p hp h1 h2
  have hmax : get_heatmap_maximum smallHeat = ([((1 : Int), (1 : Int))], [(1 : ℚ)]) := rfl
  rw [hmax] at hp
  cases k with
  | zero =>
      obtain rfl := Option.some.inj hp
      exact ⟨by decide, by decide⟩
  | succ n => simp at hp

/-- C10: decode's clamp guards only against negative peak coordinates.
First part: if the peak finder reports, for some channel `k`, a non-negative
location `(x, y)` with `x ≥ W` or `y ≥ H` against a `(2K, H, W)`-shaped
displacement field, the displacement lookup indexes out of bounds and the
decode loop fails (no clamp or check on the upper side).  Second part: under
the precondition that every non-negative reported peak satisfies `x < W` and
`y < H`, the loop is in-bounds total. -/
theorem spec_C10 :
    (∀ (s : ℚ × ℚ) (K : ℕ) (off : Arr3) (peaks : List (Int × Int)) (k : ℕ)
        (x y : Int) (b d : ℕ), shape3 off (2 * K) b d → k < K →
        peaks[k]? = some (x, y) → 0 ≤ x → 0 ≤ y → (d ≤ x.toNat ∨ b ≤ y.toNat) →
        decode_core s K off peaks = none) ∧
    (∀ (s : ℚ × ℚ) (K : ℕ) (off : Arr3) (peaks : List (Int × Int)) (b d : ℕ),
        shape3 off (2 * K) b d → 0 < b → 0 < d → K ≤ peaks.length →
        (∀ (k : ℕ) (p : Int × Int), peaks[k]? = some p → 0 ≤ p.1 → 0 ≤ p.2 →
          p.1.toNat < d ∧ p.2.toNat < b) →
        (decode_core s K off peaks).isSome) := by
  constructor
  · intro s K off peaks k x y b d hsh hk hp hx hy hoob
    refine decode_core_none_of_cell_none hk ?_
    have hox : shape3 (off.take K) K b d := shape3_take hsh (by omega)
    have hvx : np_get3 (off.take K) k y.toNat x.toNat = none :=
      np_get3_none_of_oob _ _ _ hox (by omega)
    have hcond : ¬(x < 0 ∨ y < 0) := by omega
    simp [decode_cell, hp, hcond, hvx]
  · intro s K off peaks b d hsh hb hd hlen hin
    refine decode_core_isSome ?_
    intro k hk
    have hox : shape3 (off.take K) K b d := shape3_take hsh (by omega)
    have hoy : shape3 (off.drop K) (2 * K - K) b d := shape3_drop hsh
    have hpk : k < peaks.length := by omega
    refine decode_cell_isSome _ _ _ hox hoy hk (by omega) hb hd
      (List.getElem?_eq_getElem hpk) ?_
    intro h1 h2
    exact hin k _ (List.getElem?_eq_getElem hpk) h1 h2

theorem spec_C10_witness :
    decode_core ((1 : ℚ), (1 : ℚ)) 1 [[[5]], [[6]]] [((1 : Int), (0 : Int))] = none ∧
    (decode_core ((1 : ℚ), (1 : ℚ)) 1 [[[5]], [[6]]] [((0 : Int), (0 : Int))]).isSome := by
  constructor
  · exact spec_C10.1 (1, 1) 1 [[[5]], [[6]]] [(1, 0)] 0 1 0 1 1 (by decide) (by decide)
      rfl (by decide) (by decide) (by decide)
  · refine spec_C10.2 (1, 1) 1 [[[5]], [[6]]] [(0, 0)] 1 1 (by decide) (by decide)
      (by decide) (by decide) ?_
    intro k p hp h1 h2
    cases k with
    | zero =>
        obtain rfl := Option.some.inj hp
        exact ⟨by decide, by decide⟩
    | succ n => simp at hp

end SKPSHeatmap
